import Mathlib

/-!
Shallow embedding of `src/sources/src/citygml/polygon.cpp` (class
`citygml::Polygon`) together with the collaborator interfaces it uses
(linear rings, tessellation engine, appearance target definitions).
Only `polygon.cpp` is available as source; the collaborators are modelled
from the specification's interface descriptions, as noted on each
definition.  Logging calls (`CITYGML_LOG_*`) never alter control flow and
are elided.  C++ `double`/`float` vertex coordinates are modelled as
integer triples/pairs: no claim under study performs any floating-point
arithmetic beyond exact sign negation.  Fallible C++ behaviour (a `throw`,
or undefined behaviour such as `std::vector::back()` on an empty vector)
is modelled with `Except`/`Option`.
-/

/-- 3D vertex, modelling `TVec3d` (coordinates abstracted to `ℤ`;
only exact negation is ever performed on them). -/
abbrev TVec3d : Type := ℤ × ℤ × ℤ

/-- 2D texture coordinate, modelling `TVec2f`. -/
abbrev TVec2f : Type := ℤ × ℤ

/-- Modelled from the spec: the Ring collaborator (`citygml::LinearRing`,
source not included) — "an ordered, closed loop of 3D points, tagged as
exterior or interior, exposing vertex access, duplicate-vertex removal, and
a planar-normal computation".  The result of its `computeNormal()` is
represented as stored data since its geometry is external to this core. -/
structure LinearRing where
  ringId : String
  exterior : Bool
  vertices : List TVec3d
  normal : TVec3d
deriving DecidableEq

/-- `LinearRing::getId` (modelled from the spec's ring interface). -/
def LinearRing.getId (r : LinearRing) : String := r.ringId

/-- `LinearRing::isExterior` (modelled from the spec's ring interface). -/
def LinearRing.isExterior (r : LinearRing) : Bool := r.exterior

/-- `LinearRing::computeNormal` (modelled from the spec: the ring's
planar-normal computation is external; its value is carried in the model). -/
def LinearRing.computeNormal (r : LinearRing) : TVec3d := r.normal

/-- `LinearRing::forgetVertices` (modelled from the spec: "release each
ring's vertex storage after it is consumed"). -/
def LinearRing.forgetVertices (r : LinearRing) : LinearRing :=
  { r with vertices := [] }

/-- Modelled from the spec: a `citygml::TextureCoordinates` object — a
per-ring 2D coordinate array keyed by a ring identifier. -/
structure TextureCoordinates where
  targetRingId : String
  coords : List TVec2f
deriving DecidableEq

/-- Modelled from the spec: a texture appearance object (referenced, never
owned; represented by its identity). -/
structure Texture where
  texId : String
deriving DecidableEq

/-- Modelled from the spec: a material appearance object (referenced, never
owned; represented by its identity). -/
structure Material where
  matId : String
deriving DecidableEq

/-- Modelled from the spec: `citygml::TextureTargetDefinition` — binds a
texture appearance plus per-ring coordinate arrays keyed by ring id. -/
structure TextureTargetDefinition where
  appearance : Texture
  texCoordsList : List TextureCoordinates
deriving DecidableEq

/-- `TextureTargetDefinition::getTextureCoordinatesForID` (modelled from
the spec: "additional lookup by ring identifier → 2D coordinate array"). -/
def TextureTargetDefinition.getTextureCoordinatesForID
    (d : TextureTargetDefinition) (ringId : String) : Option TextureCoordinates :=
  d.texCoordsList.find? (fun tc => tc.targetRingId == ringId)

/-- `TextureTargetDefinition::getTextureCoordinatesCount` (modelled from
the spec: "a count of bound coordinate arrays"). -/
def TextureTargetDefinition.getTextureCoordinatesCount
    (d : TextureTargetDefinition) : ℕ :=
  d.texCoordsList.length

/-- Modelled from the spec: `citygml::MaterialTargetDefinition` — binds a
material appearance for a (theme, orientation) pair. -/
structure MaterialTargetDefinition where
  appearance : Material
deriving DecidableEq

/-- Modelled from the spec (§6): the tessellation engine's accumulation
interface — `init(expectedVertexCount, normal)` then repeatable
`addContour(points)`.  The contours are recorded in call order; the
triangulation itself (`compute()` and the resulting buffers) is external
and is passed as a function parameter where needed. -/
structure Tesselator where
  expected : ℕ
  normal : TVec3d
  contours : List (List TVec3d)
deriving DecidableEq

/-- `Tesselator::init` (modelled from the spec §6). -/
def Tesselator.init (numVertices : ℕ) (normal : TVec3d) : Tesselator :=
  { expected := numVertices, normal := normal, contours := [] }

/-- `Tesselator::addContour` (modelled from the spec §6: repeatable;
each call contributes one contour, in call order). -/
def Tesselator.addContour (t : Tesselator) (pts : List TVec3d) : Tesselator :=
  { t with contours := t.contours ++ [pts] }

/-- The external triangulation step: from the fed tesselator state to the
final vertex and index buffers ("produces a final vertex buffer and a
triangle index buffer; may alter vertex count/order from the input").
Modelled from the spec as an arbitrary function parameter. -/
abbrev TessEngine : Type := Tesselator → List TVec3d × List ℕ

/-- The polygon state, from `polygon.cpp` plus the appearance-target base
class (`citygml::AppearanceTarget`, source not included) whose per-theme
target-definition lookups are modelled from the spec as association lists
keyed by (theme, front-flag). -/
structure Polygon where
  polyId : String
  finished : Bool
  negNormal : Bool
  exteriorRing : Option LinearRing
  interiorRings : List LinearRing
  vertices : List TVec3d
  indices : List ℕ
  matTargets : List ((String × Bool) × MaterialTargetDefinition)
  texTargets : List ((String × Bool) × TextureTargetDefinition)
deriving DecidableEq

/-- `Polygon::Polygon(id, logger)`: fresh polygon state. -/
def Polygon.mkPolygon (id : String) : Polygon :=
  { polyId := id, finished := false, negNormal := false,
    exteriorRing := none, interiorRings := [], vertices := [], indices := [],
    matTargets := [], texTargets := [] }

/-- `AppearanceTarget::getMaterialTargetDefinitionForTheme` (modelled from
the spec: "lookup by (theme, frontFlag) → appearance reference"). -/
def Polygon.getMaterialTargetDefinitionForTheme
    (p : Polygon) (theme : String) (front : Bool) : Option MaterialTargetDefinition :=
  (p.matTargets.find? (fun e => e.1.1 == theme && e.1.2 == front)).map (·.2)

/-- `AppearanceTarget::getTextureTargetDefinitionForTheme` (modelled from
the spec: "lookup by (theme, frontFlag) → appearance reference"). -/
def Polygon.getTextureTargetDefinitionForTheme
    (p : Polygon) (theme : String) (front : Bool) : Option TextureTargetDefinition :=
  (p.texTargets.find? (fun e => e.1.1 == theme && e.1.2 == front)).map (·.2)

/-- `Polygon::getMaterialFor(theme, front)` (polygon.cpp:38-45). -/
def Polygon.getMaterialFor (p : Polygon) (theme : String) (front : Bool) :
    Option Material :=
  match p.getMaterialTargetDefinitionForTheme theme front with
  | none => none
  | some targetDef => some targetDef.appearance

/-- `Polygon::getMaterialFor(theme)` (polygon.cpp:47-54): front first,
then back. -/
def Polygon.getMaterialFor' (p : Polygon) (theme : String) : Option Material :=
  match p.getMaterialFor theme true with
  | some result => some result
  | none => p.getMaterialFor theme false

/-- `Polygon::getTextureFor(theme, front)` (polygon.cpp:56-63). -/
def Polygon.getTextureFor (p : Polygon) (theme : String) (front : Bool) :
    Option Texture :=
  match p.getTextureTargetDefinitionForTheme theme front with
  | none => none
  | some targetDef => some targetDef.appearance

/-- `Polygon::getTextureFor(theme)` (polygon.cpp:65-72): front first,
then back. -/
def Polygon.getTextureFor' (p : Polygon) (theme : String) : Option Texture :=
  match p.getTextureFor theme true with
  | some result => some result
  | none => p.getTextureFor theme false

/-- The canonical ring-id order built in `getTexCoordsForTheme`
(polygon.cpp:84-94): exterior ring id first (when present), then interior
ring ids in insertion order. -/
def Polygon.orderedRingIDs (p : Polygon) : List String :=
  (match p.exteriorRing with
    | some r => [r.getId]
    | none => []) ++ p.interiorRings.map LinearRing.getId

/-- The concatenation loop of `getTexCoordsForTheme` (polygon.cpp:103-113):
for each ring id in canonical order, append that ring's coordinate array
when the target definition has one, else contribute nothing (a warning is
logged). -/
def Polygon.collectedTexCoords (p : Polygon) (targetDef : TextureTargetDefinition) :
    List TVec2f :=
  p.orderedRingIDs.foldl
    (fun acc ringId =>
      match targetDef.getTextureCoordinatesForID ringId with
      | none => acc
      | some coordinates => acc ++ coordinates.coords) []

/-- The reconciliation workaround of `getTexCoordsForTheme`
(polygon.cpp:115-122): `resize` (truncate) when the collected sequence is
longer than the vertex count `n`; when shorter, repeatedly
`push_back(texCoords.back())` until the lengths match — each push repeats
the last element, so the padding appends copies of it.  When the collected
sequence is empty and `n > 0`, the first `back()` call reads an element of
an empty `std::vector` — undefined behaviour, modelled as `none`. -/
def reconcileTexCoords (texCoords : List TVec2f) (n : ℕ) : Option (List TVec2f) :=
  if texCoords.length > n then
    some (texCoords.take n)
  else if texCoords.length < n then
    match texCoords.getLast? with
    | none => none
    | some last => some (texCoords ++ List.replicate (n - texCoords.length) last)
  else
    some texCoords

/-- `Polygon::getTexCoordsForTheme` (polygon.cpp:74-125): empty result
without a bound target definition; otherwise the per-ring coordinates are
collected in canonical ring order and reconciled against
`m_vertices.size()`. -/
def Polygon.getTexCoordsForTheme (p : Polygon) (theme : String) (front : Bool) :
    Option (List TVec2f) :=
  match p.getTextureTargetDefinitionForTheme theme front with
  | none => some []
  | some targetDef =>
    reconcileTexCoords (p.collectedTexCoords targetDef) p.vertices.length

/-- `Polygon::computeNormal` (polygon.cpp:139-146): zero vector without an
exterior ring, else the exterior ring's normal, sign-flipped when
`m_negNormal` is set. -/
def Polygon.computeNormal (p : Polygon) : TVec3d :=
  match p.exteriorRing with
  | none => (0, 0, 0)
  | some r => if p.negNormal then -r.computeNormal else r.computeNormal

/-- `Polygon::negNormal` (polygon.cpp:148-151). -/
def Polygon.getNegNormal (p : Polygon) : Bool := p.negNormal

/-- `Polygon::setNegNormal` (polygon.cpp:153-156): sets the flag,
unconditionally. -/
def Polygon.setNegNormal (p : Polygon) (negNormal : Bool) : Polygon :=
  { p with negNormal := negNormal }

/-- The external per-ring duplicate-vertex removal
(`LinearRing::removeDuplicateVertices(texTargetDefinitions, logger)`,
source not included).  Modelled from the spec: it rewrites one ring and, in
lockstep, the texture target definitions passed to it. -/
abbrev DedupFun : Type :=
  LinearRing → List ((String × Bool) × TextureTargetDefinition) →
    LinearRing × List ((String × Bool) × TextureTargetDefinition)

/-- The exterior-ring step of `removeDuplicateVerticesInRings`
(polygon.cpp:162-165): deduplicate the exterior ring (when present),
yielding the updated ring slot and the updated texture target
definitions. -/
def Polygon.dedupExteriorStep (dedup : DedupFun) (p : Polygon) :
    Option LinearRing × List ((String × Bool) × TextureTargetDefinition) :=
  match p.exteriorRing with
  | some r => (some (dedup r p.texTargets).1, (dedup r p.texTargets).2)
  | none => (none, p.texTargets)

/-- `Polygon::removeDuplicateVerticesInRings` (polygon.cpp:158-171):
delegate deduplication to the exterior ring, then to each interior ring in
insertion order, threading the texture target definitions through. -/
def Polygon.removeDuplicateVerticesInRings (dedup : DedupFun) (p : Polygon) :
    Polygon :=
  { p with
    exteriorRing := (p.dedupExteriorStep dedup).1,
    interiorRings :=
      (p.interiorRings.foldl
        (fun acc r => (acc.1 ++ [(dedup r acc.2).1], (dedup r acc.2).2))
        (([] : List LinearRing), (p.dedupExteriorStep dedup).2)).1,
    texTargets :=
      (p.interiorRings.foldl
        (fun acc r => (acc.1 ++ [(dedup r acc.2).1], (dedup r acc.2).2))
        (([] : List LinearRing), (p.dedupExteriorStep dedup).2)).2 }

/-- `size_t` → `int` narrowing: take the low 32 bits and read them as a
two's-complement signed value (the behaviour of every mainstream C++
implementation, and the defined behaviour since C++20). -/
def int32ofNat (v : ℕ) : ℤ :=
  if v % 2 ^ 32 < 2 ^ 31 then ((v % 2 ^ 32 : ℕ) : ℤ)
  else ((v % 2 ^ 32 : ℕ) : ℤ) - 2 ^ 32

/-- The index-writing loop of `createSimpleIndices` (polygon.cpp:191-193):
`for (i = 0, p = 0; p < indicesSize - 2; i++, p += 3) for (j = 0; j < 3; j++)
m_indices[p+j] = i+j;` — embedded with explicit fuel (the loop advances `p`
by 3 each iteration, so `indicesSize` iterations always suffice). -/
def fanWrite : ℕ → List ℕ → ℕ → ℕ → ℤ → List ℕ
  | 0, l, _, _, _ => l
  | fuel + 1, l, i, p, indicesSize =>
    if (p : ℤ) < indicesSize - 2 then
      fanWrite fuel (((l.set p i).set (p + 1) (i + 1)).set (p + 2) (i + 2))
        (i + 1) (p + 3) indicesSize
    else l

/-- `int indicesSize = 3 * (m_vertices.size() - 2);` (polygon.cpp:188) as
a function of the vertex count `n`: `size_t` arithmetic (wrapping modulo
`2^64`) narrowed to a 32-bit `int`. -/
def fanIndicesSize (n : ℕ) : ℤ :=
  int32ofNat (3 * ((n + 2 ^ 64 - 2) % 2 ^ 64) % 2 ^ 64)

/-- The index construction of `createSimpleIndices` (polygon.cpp:187-193)
as a function of the flattened vertex count `n`: when the narrowed size is
below 3 no indices are produced, otherwise the buffer is `resize`d (zero
filled) and the fan loop writes into it. -/
def fanIndices (n : ℕ) : List ℕ :=
  if fanIndicesSize n < 3 then []
  else
    fanWrite (fanIndicesSize n).toNat
      (List.replicate (fanIndicesSize n).toNat 0) 0 0 (fanIndicesSize n)

/-- The vertex-accumulation phase of `createSimpleIndices`
(polygon.cpp:175-185): append the exterior ring's vertices (when present)
then each interior ring's vertices, in insertion order, to `m_vertices`. -/
def Polygon.simpleFlattenedVertices (p : Polygon) : List TVec3d :=
  p.interiorRings.foldl (fun acc r => acc ++ r.vertices)
    (p.vertices ++
      (match p.exteriorRing with
        | some r => r.vertices
        | none => []))

/-- `Polygon::createSimpleIndices` (polygon.cpp:173-194): accumulate the
ring vertices into `m_vertices`, releasing each ring's storage, then build
the triangle-fan index buffer from the resulting vertex count. -/
def Polygon.createSimpleIndices (p : Polygon) : Polygon :=
  { p with
    vertices := p.simpleFlattenedVertices,
    indices := p.indices ++ fanIndices p.simpleFlattenedVertices.length,
    exteriorRing := p.exteriorRing.map LinearRing.forgetVertices,
    interiorRings := p.interiorRings.map LinearRing.forgetVertices }

/-- The pre-tessellation vertex-count sum of
`createIndicesWithTesselation` (polygon.cpp:200-208). -/
def Polygon.tessNumVertices (p : Polygon) : ℕ :=
  (match p.exteriorRing with
    | some r => r.vertices.length
    | none => 0) +
  (p.interiorRings.map (fun r => r.vertices.length)).sum

/-- The contour-feeding phase of `createIndicesWithTesselation`
(polygon.cpp:198-223): compute the normal, sum the ring vertex counts,
`init` the tesselator, then `addContour` the exterior ring's vertices (when
present), each interior ring's vertices in insertion order, and finally the
polygon's own `m_vertices` buffer (line 223). -/
def Polygon.tessFeed (p : Polygon) : Tesselator :=
  Tesselator.addContour
    (p.interiorRings.foldl (fun t r => t.addContour r.vertices)
      (match p.exteriorRing with
        | some r => (Tesselator.init p.tessNumVertices p.computeNormal).addContour r.vertices
        | none => Tesselator.init p.tessNumVertices p.computeNormal))
    p.vertices

/-- `Polygon::createIndicesWithTesselation` (polygon.cpp:196-232): feed the
tesselator, release every ring's vertex storage, run the external
triangulation and adopt its vertex and index buffers (the vertex-count
consistency check only logs). -/
def Polygon.createIndicesWithTesselation (engine : TessEngine) (p : Polygon) :
    Polygon :=
  { p with
    vertices := (engine p.tessFeed).1,
    indices := (engine p.tessFeed).2,
    exteriorRing := p.exteriorRing.map LinearRing.forgetVertices,
    interiorRings := p.interiorRings.map LinearRing.forgetVertices }

/-- The clearing step of `computeIndices` (polygon.cpp:236-237). -/
def Polygon.clearBuffers (p : Polygon) : Polygon :=
  { p with vertices := [], indices := [] }

/-- `Polygon::computeIndices` (polygon.cpp:234-248): clear both buffers,
then dispatch on `tesselate` (the fewer-than-3-vertices check only logs). -/
def Polygon.computeIndices (tesselate : Bool) (engine : TessEngine) (p : Polygon) :
    Polygon :=
  if tesselate then p.clearBuffers.createIndicesWithTesselation engine
  else p.clearBuffers.createSimpleIndices

/-- `Polygon::finish` (polygon.cpp:250-265): return unchanged when already
finished; otherwise set the latch, optionally deduplicate ring vertices,
and build the mesh. -/
def Polygon.finish (doTesselate : Bool) (engine : TessEngine) (optimize : Bool)
    (dedup : DedupFun) (p : Polygon) : Polygon :=
  if p.finished then p
  else
    Polygon.computeIndices doTesselate engine
      (if optimize then
        Polygon.removeDuplicateVerticesInRings dedup { p with finished := true }
      else { p with finished := true })

/-- The error class of `Polygon::addRing`'s `throw std::runtime_error`
(polygon.cpp:270); the spec calls it the structural `InvalidStateError`. -/
inductive PolygonError where
  | invalidState
deriving DecidableEq

/-- `Polygon::addRing` (polygon.cpp:267-286): throw on a finished polygon;
silently discard a duplicate exterior ring (warning logged, ring deleted);
otherwise store the ring in the exterior slot or append it to the interior
sequence. -/
def Polygon.addRing (p : Polygon) (ring : LinearRing) : Except PolygonError Polygon :=
  if p.finished then
    Except.error PolygonError.invalidState
  else if ring.isExterior && p.exteriorRing.isSome then
    Except.ok p
  else if ring.isExterior then
    Except.ok { p with exteriorRing := some ring }
  else
    Except.ok { p with interiorRings := p.interiorRings ++ [ring] }

/-- The triangle fan described by the specification (one triangle
`(k, k+1, k+2)` for each `k` in `0 .. n-3`), stated from the spec's words
for comparison with the source-derived `fanIndices`. -/
def fanSpec (n : ℕ) : List ℕ :=
  (List.range (n - 2)).flatMap (fun k => [k, k + 1, k + 2])

/-- One fan triangle per `k` below `k0`: the prefix of the spec's fan. -/
def fanFlat (k0 : ℕ) : List ℕ :=
  (List.range k0).flatMap (fun k => [k, k + 1, k + 2])

/-- A dedup collaborator that changes nothing (used for concrete runs). -/
def dedupId : DedupFun := fun r t => (r, t)

/-- A tessellation engine that produces empty buffers (used for concrete
runs of the simple, non-tessellated path, where the engine is never
consulted). -/
def engine0 : TessEngine := fun _ => ([], [])

/-- A tessellation engine that reports, as its sole index, how many
contours it was fed (used to observe the contour count through `finish`). -/
def engineCount : TessEngine := fun t => ([], [t.contours.length])

lemma fanSpec_eq_fanFlat (n : ℕ) : fanSpec n = fanFlat (n - 2) := rfl

lemma fanFlat_succ (k : ℕ) : fanFlat (k + 1) = fanFlat k ++ [k, k + 1, k + 2] := by
  simp [fanFlat, List.range_succ]

lemma fanFlat_length (k : ℕ) : (fanFlat k).length = 3 * k := by
  induction k with
  | zero => rfl
  | succ k ih => rw [fanFlat_succ]; simp [ih]; ring

lemma fanSpec_length (n : ℕ) : (fanSpec n).length = 3 * (n - 2) := by
  rw [fanSpec_eq_fanFlat, fanFlat_length]

lemma set_append_add {α : Type} (l1 l2 : List α) (j : ℕ) (a : α) :
    (l1 ++ l2).set (l1.length + j) a = l1 ++ l2.set j a := by
  induction l1 with
  | nil => simp
  | cons x xs ih => simp [List.set, Nat.succ_add, ih]

lemma replicate_three_succ (d : ℕ) :
    List.replicate (3 * (d + 1)) (0 : ℕ) =
      0 :: 0 :: 0 :: List.replicate (3 * d) 0 := by
  have h : 3 * (d + 1) = 3 * d + 1 + 1 + 1 := by ring
  rw [h]
  simp [List.replicate_succ]

lemma set_triple (l1 rest : List ℕ) (i : ℕ) :
    (((l1 ++ 0 :: 0 :: 0 :: rest).set l1.length i).set (l1.length + 1) (i + 1)).set
        (l1.length + 2) (i + 2) =
      l1 ++ i :: (i + 1) :: (i + 2) :: rest := by
  simp [List.set_append, List.set]

/-- Invariant of the fan-writing loop: started on the partially written
buffer after `i` triangles with `d` triangles left and enough fuel, it
completes the full fan. -/
lemma fanWrite_inv (N : ℕ) :
    ∀ d i fuel : ℕ, i + d = N → d ≤ fuel →
      fanWrite fuel (fanFlat i ++ List.replicate (3 * d) 0) i (3 * i)
        (3 * (N : ℤ)) = fanFlat N := by
  intro d
  induction d with
  | zero =>
    intro i fuel hiN _
    subst hiN
    cases fuel with
    | zero => simp [fanWrite]
    | succ f =>
      rw [fanWrite, if_neg (by push_cast; omega)]
      simp
  | succ d ih =>
    intro i fuel hiN hfuel
    cases fuel with
    | zero => omega
    | succ f =>
      rw [fanWrite, if_pos (by push_cast; omega)]
      rw [replicate_three_succ, ← fanFlat_length i, set_triple]
      have hl :
          fanFlat i ++ i :: (i + 1) :: (i + 2) :: List.replicate (3 * d) 0 =
            fanFlat (i + 1) ++ List.replicate (3 * d) 0 := by
        rw [fanFlat_succ]; simp
      rw [hl, fanFlat_length]
      have hp : 3 * i + 3 = 3 * (i + 1) := by ring
      rw [hp]
      exact ih (i + 1) f (by omega) (by omega)

/-- For `3 ≤ n` with `3*(n-2)` below `2^31` (no narrowing wrap), the
narrowed size expression is exactly `3*(n-2)`. -/
lemma fanIndicesSize_no_wrap (n : ℕ) (h3 : 3 ≤ n) (hlt : 3 * (n - 2) < 2 ^ 31) :
    fanIndicesSize n = ((3 * (n - 2) : ℕ) : ℤ) := by
  have hmod1 : (n + 2 ^ 64 - 2) % 2 ^ 64 = n - 2 := by omega
  have hmod2 : 3 * (n - 2) % 2 ^ 64 = 3 * (n - 2) := by omega
  have hmod3 : 3 * (n - 2) % 2 ^ 32 = 3 * (n - 2) := by omega
  unfold fanIndicesSize int32ofNat
  rw [hmod1, hmod2, hmod3, if_pos (by omega)]

/-- For `3 ≤ n` with `3*(n-2)` below `2^31` (no narrowing wrap), the
source's fan construction produces exactly the specification's fan. -/
lemma fanIndices_eq_fanSpec (n : ℕ) (h3 : 3 ≤ n) (hlt : 3 * (n - 2) < 2 ^ 31) :
    fanIndices n = fanSpec n := by
  have hsz := fanIndicesSize_no_wrap n h3 hlt
  unfold fanIndices
  rw [hsz, if_neg (by push_cast; omega)]
  have htn : ((3 * (n - 2) : ℕ) : ℤ).toNat = 3 * (n - 2) := by omega
  rw [htn, fanSpec_eq_fanFlat]
  have h := fanWrite_inv (n - 2) (n - 2) 0 (3 * (n - 2)) (by omega) (by omega)
  simp only [fanFlat, List.range_zero, List.flatMap_nil, List.nil_append,
    Nat.mul_zero] at h
  have hc : ((3 * (n - 2) : ℕ) : ℤ) = 3 * ((n - 2 : ℕ) : ℤ) := by push_cast; ring
  rw [hc]
  simpa [fanFlat] using h

/-- For fewer than 3 flattened vertices the narrowed size expression is
below 3 (negative for `n < 2`) and no indices are produced. -/
lemma fanIndices_small (n : ℕ) (h : n < 3) : fanIndices n = [] := by
  interval_cases n <;> decide

/-- The exterior ring's vertices followed by each interior ring's vertices
in insertion order — the flattening the simple path performs. -/
def flattenRingVertices (p : Polygon) : List TVec3d :=
  (match p.exteriorRing with
    | some r => r.vertices
    | none => []) ++ (p.interiorRings.map LinearRing.vertices).flatten

lemma foldl_append_vertices (rs : List LinearRing) (acc : List TVec3d) :
    rs.foldl (fun a r => a ++ r.vertices) acc =
      acc ++ (rs.map LinearRing.vertices).flatten := by
  induction rs generalizing acc with
  | nil => simp
  | cons r rs ih => simp [ih]

lemma foldl_addContour (rs : List LinearRing) (t : Tesselator) :
    (rs.foldl (fun t r => t.addContour r.vertices) t).contours =
      t.contours ++ rs.map LinearRing.vertices := by
  induction rs generalizing t with
  | nil => simp
  | cons r rs ih =>
    rw [List.foldl_cons, ih]
    simp [Tesselator.addContour]

lemma simpleFlattened_clear (p : Polygon) :
    p.clearBuffers.simpleFlattenedVertices = flattenRingVertices p := by
  show p.interiorRings.foldl (fun acc r => acc ++ r.vertices)
      ([] ++
        (match p.exteriorRing with
          | some r => r.vertices
          | none => [])) = _
  rw [foldl_append_vertices, List.nil_append]
  rfl

lemma computeIndices_simple_vertices (p : Polygon) (engine : TessEngine) :
    (p.computeIndices false engine).vertices = flattenRingVertices p := by
  show p.clearBuffers.simpleFlattenedVertices = _
  exact simpleFlattened_clear p

lemma computeIndices_simple_indices (p : Polygon) (engine : TessEngine) :
    (p.computeIndices false engine).indices =
      fanIndices (flattenRingVertices p).length := by
  show [] ++ fanIndices p.clearBuffers.simpleFlattenedVertices.length =
      fanIndices (flattenRingVertices p).length
  rw [List.nil_append, simpleFlattened_clear]

/-! Concrete fixtures used by witnesses and counterexamples. -/

/-- A planar convex exterior ring with 5 vertices `[A,B,C,D,E]`. -/
def rFan5 : LinearRing :=
  { ringId := "fan5", exterior := true,
    vertices := [(0, 0, 0), (2, 0, 0), (3, 1, 0), (1, 2, 0), (0, 1, 0)],
    normal := (0, 0, 1) }

/-- Unfinished polygon holding only `rFan5`. -/
def pFan5 : Polygon := { Polygon.mkPolygon "pFan5" with exteriorRing := some rFan5 }

/-- Exterior ring whose vertex count makes `3*(n-2)` equal `2^31 + 1`, so
the narrowed `int` size is negative. -/
def pWrap : Polygon :=
  { Polygon.mkPolygon "pWrap" with
    exteriorRing := some
      { ringId := "big31", exterior := true,
        vertices := List.replicate 715827885 ((0, 0, 0) : TVec3d),
        normal := (0, 0, 1) } }

/-- Exterior ring whose vertex count makes `3*(n-2)` equal `2^32 + 5`, so
the narrowed `int` size is `5` — positive but not a multiple of 3. -/
def pOverflow : Polygon :=
  { Polygon.mkPolygon "pOverflow" with
    exteriorRing := some
      { ringId := "big32", exterior := true,
        vertices := List.replicate 1431655769 ((0, 0, 0) : TVec3d),
        normal := (0, 0, 1) } }

/-- C4 (amended): in the simple path of `finish`'s mesh construction, the
vertex buffer is the flattening of the exterior ring's vertices followed by
each interior ring's vertices in insertion order; with `n` its length, the
index buffer is empty when `n < 3` (the `size_t` expression underflows and
the narrowed value is negative), and is exactly the triangle fan
`(k, k+1, k+2)` for `k` in `0 .. n-3` provided additionally `3*(n-2)` fits
in a 32-bit `int` (`3*(n-2) < 2^31`); without that bound the narrowing
wraps and the fan shape is lost. -/
theorem createSimpleIndices_fan (p : Polygon) (engine : TessEngine) :
    (p.computeIndices false engine).vertices = flattenRingVertices p ∧
    ((flattenRingVertices p).length < 3 →
      (p.computeIndices false engine).indices = []) ∧
    (3 ≤ (flattenRingVertices p).length →
      3 * ((flattenRingVertices p).length - 2) < 2 ^ 31 →
      (p.computeIndices false engine).indices =
        fanSpec (flattenRingVertices p).length) :=
  ⟨computeIndices_simple_vertices p engine,
   fun h => by rw [computeIndices_simple_indices]; exact fanIndices_small _ h,
   fun h3 hlt => by
     rw [computeIndices_simple_indices]
     exact fanIndices_eq_fanSpec _ h3 hlt⟩

/-- Witness for C4: the 5-vertex convex ring produces the spec's example
fan `[0,1,2, 1,2,3, 2,3,4]`. -/
theorem createSimpleIndices_fan_witness :
    3 ≤ (flattenRingVertices pFan5).length ∧
    3 * ((flattenRingVertices pFan5).length - 2) < 2 ^ 31 ∧
    (pFan5.computeIndices false engine0).indices = [0, 1, 2, 1, 2, 3, 2, 3, 4] := by
  have h := (createSimpleIndices_fan pFan5 engine0).2.2 (by decide) (by decide)
  refine ⟨by decide, by decide, ?_⟩
  rw [h]
  decide

/-- Counterexample to C4 as stated: at 715827885 flattened vertices
(`3*(n-2) = 2^31 + 1`), `n ≥ 3` yet the index buffer comes out empty, not
the claimed fan of length `3*(n-2)`. -/
theorem createSimpleIndices_fan_cx :
    3 ≤ (flattenRingVertices pWrap).length ∧
    (pWrap.computeIndices false engine0).indices = [] ∧
    fanSpec (flattenRingVertices pWrap).length ≠ [] := by
  have hv : flattenRingVertices pWrap = List.replicate 715827885 ((0, 0, 0) : TVec3d) := by
    show List.replicate 715827885 ((0, 0, 0) : TVec3d) ++ [] = _
    exact List.append_nil _
  have hlen : (flattenRingVertices pWrap).length = 715827885 := by
    rw [hv, List.length_replicate]
  refine ⟨by rw [hlen]; norm_num, ?_, ?_⟩
  · rw [computeIndices_simple_indices, hlen]
    decide
  · rw [hlen]
    intro hc
    have hl := fanSpec_length 715827885
    rw [hc] at hl
    norm_num at hl

/-- C8 (failing evaluation): at 1431655769 flattened vertices the `size_t`
product `3*(n-2)` equals `2^32 + 5`, the narrowed `int` size is `5`, and
the simple path emits a 5-entry index buffer (one fan triangle plus two
zero-filled slots) — `indices.size() % 3 == 0` is violated. -/
theorem simpleIndices_mod3_failure :
    (pOverflow.computeIndices false engine0).indices.length % 3 = 2 := by
  rw [computeIndices_simple_indices]
  have hv : flattenRingVertices pOverflow =
      List.replicate 1431655769 ((0, 0, 0) : TVec3d) := by
    show List.replicate 1431655769 ((0, 0, 0) : TVec3d) ++ [] = _
    exact List.append_nil _
  rw [hv, List.length_replicate]
  decide

/-- The exterior ring of the two-ring tessellation scenario (4 coplanar
points). -/
def rExtC : LinearRing :=
  { ringId := "outer", exterior := true,
    vertices := [(0, 0, 0), (4, 0, 0), (4, 4, 0), (0, 4, 0)],
    normal := (0, 0, 1) }

/-- The interior (hole) ring of the two-ring tessellation scenario
(4 points). -/
def rIntC : LinearRing :=
  { ringId := "inner", exterior := false,
    vertices := [(1, 1, 0), (2, 1, 0), (2, 2, 0), (1, 2, 0)],
    normal := (0, 0, 1) }

/-- Unfinished polygon with one exterior and one interior ring. -/
def pTwoRings : Polygon :=
  { Polygon.mkPolygon "pTwoRings" with
    exteriorRing := some rExtC, interiorRings := [rIntC] }

lemma contours_addContour (t : Tesselator) (c : List TVec3d) :
    (t.addContour c).contours = t.contours ++ [c] := rfl

lemma contours_init (n : ℕ) (v : TVec3d) : (Tesselator.init n v).contours = [] := rfl

/-- C1 (amended): on the buffers-cleared state that `computeIndices` hands
to the tessellated path, the engine receives one contour per ring — the
exterior ring's vertices first (when present), then each interior ring's
vertices in insertion order — followed by one extra trailing contour
holding the polygon's just-cleared (hence empty) vertex buffer
(polygon.cpp:223). -/
theorem tessellation_contours_per_ring (p : Polygon) :
    p.clearBuffers.tessFeed.contours =
      ((match p.exteriorRing with
        | some r => [r.vertices]
        | none => []) ++ p.interiorRings.map LinearRing.vertices) ++ [[]] := by
  unfold Polygon.tessFeed
  have hx : p.clearBuffers.exteriorRing = p.exteriorRing := rfl
  have hi : p.clearBuffers.interiorRings = p.interiorRings := rfl
  have hv : p.clearBuffers.vertices = ([] : List TVec3d) := rfl
  rw [contours_addContour, foldl_addContour, hx, hi, hv]
  cases p.exteriorRing with
  | none => rw [contours_init]
  | some r => rw [contours_addContour, contours_init]; simp

/-- Counterexample to C1 as stated: with one exterior and one interior
ring the engine receives 3 contours, not exactly 2 — seen directly on the
fed tesselator state, and through `finish` itself with an engine that
reports, as its sole output index, the number of contours it was fed. -/
theorem tessellation_contours_cx :
    pTwoRings.clearBuffers.tessFeed.contours =
      [rExtC.vertices, rIntC.vertices, []] ∧
    (pTwoRings.finish true engineCount false dedupId).indices = [3] := by
  constructor <;> rfl

lemma computeIndices_finished (t : Bool) (engine : TessEngine) (p : Polygon) :
    (p.computeIndices t engine).finished = p.finished := by
  cases t <;> rfl

lemma finish_of_finished (d : Bool) (engine : TessEngine) (o : Bool)
    (dedup : DedupFun) (p : Polygon) (h : p.finished = true) :
    Polygon.finish d engine o dedup p = p := by
  unfold Polygon.finish
  rw [if_pos h]

lemma finish_finished (d : Bool) (engine : TessEngine) (o : Bool)
    (dedup : DedupFun) (p : Polygon) :
    (Polygon.finish d engine o dedup p).finished = true := by
  by_cases h : p.finished = true
  · rw [finish_of_finished d engine o dedup p h]
    exact h
  · unfold Polygon.finish
    rw [if_neg h, computeIndices_finished]
    cases o <;> rfl

/-- C5: `finish` is idempotent — a polygon latched by a first `finish`
call is returned unchanged by any second call, with any flag combination,
engine, and dedup collaborator: vertices, indices, the exterior ring and
the interior ring sequence all stay exactly as the first call left them
(no ring deduplication, no re-triangulation). -/
theorem finish_idempotent (p : Polygon) (d1 d2 o1 o2 : Bool)
    (e1 e2 : TessEngine) (dd1 dd2 : DedupFun) :
    Polygon.finish d2 e2 o2 dd2 (Polygon.finish d1 e1 o1 dd1 p) =
      Polygon.finish d1 e1 o1 dd1 p :=
  finish_of_finished d2 e2 o2 dd2 _ (finish_finished d1 e1 o1 dd1 p)

/-- C6: ring insertion into a finished polygon signals the structural
invalid-state error (`throw std::runtime_error`, polygon.cpp:270); the
embedding is pure, so the failed call leaves the polygon value — vertices,
indices and the ring set — untouched. -/
theorem addRing_finished_error (p : Polygon) (r : LinearRing)
    (h : p.finished = true) :
    p.addRing r = Except.error PolygonError.invalidState := by
  unfold Polygon.addRing
  rw [if_pos h]

/-- A ring used for insertion attempts. -/
def rSpare : LinearRing :=
  { ringId := "spare", exterior := true,
    vertices := [(0, 0, 0), (1, 0, 0), (0, 1, 0)], normal := (0, 0, 1) }

/-- A finished polygon (produced by actually running `finish` on
`pFan5`). -/
def pDone : Polygon := pFan5.finish false engine0 false dedupId

/-- Witness for C6: the finished `pDone` rejects `rSpare` with the
invalid-state error. -/
theorem addRing_finished_error_witness :
    pDone.finished = true ∧
    pDone.addRing rSpare = Except.error PolygonError.invalidState :=
  ⟨rfl, addRing_finished_error pDone rSpare rfl⟩

/-- C7: on an unfinished polygon that already holds an exterior ring, a
second exterior-marked ring does not raise: the call returns successfully
with the polygon state exactly unchanged (new ring discarded, previous
exterior ring and interior sequence retained, so every later geometry or
appearance query reflects only the first exterior ring). -/
theorem addRing_duplicate_exterior (p : Polygon) (r : LinearRing)
    (hf : p.finished = false) (hx : r.isExterior = true)
    (he : p.exteriorRing.isSome = true) :
    p.addRing r = Except.ok p := by
  unfold Polygon.addRing
  rw [if_neg (by rw [hf]; exact Bool.false_ne_true), if_pos (by rw [hx, he]; rfl)]

/-- Witness for C7: `pTwoRings` (unfinished, exterior ring present) keeps
its state when the exterior-marked `rSpare` is inserted. -/
theorem addRing_duplicate_exterior_witness :
    pTwoRings.finished = false ∧ rSpare.isExterior = true ∧
    pTwoRings.exteriorRing.isSome = true ∧
    pTwoRings.addRing rSpare = Except.ok pTwoRings :=
  ⟨rfl, rfl, rfl, addRing_duplicate_exterior pTwoRings rSpare rfl rfl rfl⟩

lemma getTexCoordsForTheme_eq (p : Polygon) (theme : String) (front : Bool)
    (d : TextureTargetDefinition)
    (hd : p.getTextureTargetDefinitionForTheme theme front = some d) :
    p.getTexCoordsForTheme theme front =
      reconcileTexCoords (p.collectedTexCoords d) p.vertices.length := by
  unfold Polygon.getTexCoordsForTheme
  rw [hd]

lemma reconcile_spec (L : List TVec2f) (n : ℕ) (hne : L ≠ [] ∨ n = 0) :
    ∃ tc, reconcileTexCoords L n = some tc ∧ tc.length = n ∧
      (n ≤ L.length → tc = L.take n) ∧
      (L.length < n → ∀ last, L.getLast? = some last →
        tc = L ++ List.replicate (n - L.length) last) := by
  unfold reconcileTexCoords
  by_cases hgt : L.length > n
  · rw [if_pos hgt]
    refine ⟨L.take n, rfl, ?_, fun _ => rfl, fun hlt => absurd hlt (by omega)⟩
    rw [List.length_take]
    omega
  · rw [if_neg hgt]
    by_cases hlt : L.length < n
    · rw [if_pos hlt]
      have hL : L ≠ [] := by
        rcases hne with h | h
        · exact h
        · omega
      cases hlast : L.getLast? with
      | none => exact absurd (List.getLast?_eq_none_iff.mp hlast) hL
      | some last =>
        refine ⟨L ++ List.replicate (n - L.length) last, rfl, ?_,
          fun hle => absurd hle (by omega), fun _ last' hlast' => ?_⟩
        · rw [List.length_append, List.length_replicate]
          omega
        · cases hlast'
          rfl
    · rw [if_neg hlt]
      have heq : L.length = n := by omega
      refine ⟨L, rfl, heq, fun _ => ?_, fun hlt2 => absurd hlt2 (by omega)⟩
      rw [← heq, List.take_length]

/-- C2 (amended): for a bound texture target definition, provided at least
one per-ring coordinate array was collected (or the vertex buffer is
empty), `getTexCoordsForTheme` returns a sequence of length exactly
`vertices.size()`: longer collected data is truncated to that length,
shorter data is padded by repeating its last coordinate.  (When nothing at
all is collected and vertices are present, the padding loop instead reads
`back()` of an empty vector — see the counterexample.) -/
theorem getTexCoordsForTheme_length (p : Polygon) (theme : String)
    (front : Bool) (d : TextureTargetDefinition)
    (hd : p.getTextureTargetDefinitionForTheme theme front = some d)
    (hne : p.collectedTexCoords d ≠ [] ∨ p.vertices = []) :
    ∃ tc, p.getTexCoordsForTheme theme front = some tc ∧
      tc.length = p.vertices.length ∧
      (p.vertices.length ≤ (p.collectedTexCoords d).length →
        tc = (p.collectedTexCoords d).take p.vertices.length) ∧
      ((p.collectedTexCoords d).length < p.vertices.length →
        ∀ last, (p.collectedTexCoords d).getLast? = some last →
          tc = p.collectedTexCoords d ++
            List.replicate (p.vertices.length - (p.collectedTexCoords d).length) last) := by
  rw [getTexCoordsForTheme_eq p theme front d hd]
  refine reconcile_spec _ _ (hne.imp id fun h => ?_)
  rw [h]
  rfl

/-- A texture binding whose only per-ring coordinate array (3 entries,
keyed to ring id "outer") is shorter than the final vertex count. -/
def dPad : TextureTargetDefinition :=
  { appearance := { texId := "texPad" },
    texCoordsList := [{ targetRingId := "outer", coords := [(0, 0), (1, 0), (1, 1)] }] }

/-- `pTwoRings` with the `dPad` binding, then actually finalized through
`finish` (simple path): 8 vertices, 3 collected coordinates. -/
def pPadW : Polygon :=
  Polygon.finish false engine0 false dedupId
    { pTwoRings with texTargets := [(("T", true), dPad)] }

/-- Witness for C2: on `pPadW` the 3 collected coordinates are padded with
their last entry up to the 8 vertices. -/
theorem getTexCoordsForTheme_length_witness :
    pPadW.collectedTexCoords dPad ≠ [] ∧
    (∃ tc, pPadW.getTexCoordsForTheme "T" true = some tc ∧
      tc.length = pPadW.vertices.length ∧
      (pPadW.vertices.length ≤ (pPadW.collectedTexCoords dPad).length →
        tc = (pPadW.collectedTexCoords dPad).take pPadW.vertices.length) ∧
      ((pPadW.collectedTexCoords dPad).length < pPadW.vertices.length →
        ∀ last, (pPadW.collectedTexCoords dPad).getLast? = some last →
          tc = pPadW.collectedTexCoords dPad ++
            List.replicate
              (pPadW.vertices.length - (pPadW.collectedTexCoords dPad).length) last)) :=
  ⟨by decide, getTexCoordsForTheme_length pPadW "T" true dPad rfl (Or.inl (by decide))⟩

/-- A texture binding holding no per-ring coordinate array at all. -/
def dEmptyT : TextureTargetDefinition :=
  { appearance := { texId := "texEmpty" }, texCoordsList := [] }

/-- `pTwoRings` with the coordinate-less `dEmptyT` binding, finalized
through `finish` (simple path): 8 vertices, nothing collected. -/
def pNoCoords : Polygon :=
  Polygon.finish false engine0 false dedupId
    { pTwoRings with texTargets := [(("T", true), dEmptyT)] }

/-- Counterexample to C2 as stated: on the finalized `pNoCoords` a texture
target is bound for ("T", front) yet the call does not return a sequence of
length `vertices.size()` — the padding loop dereferences the empty
collected vector (undefined behaviour, `none` in the embedding). -/
theorem getTexCoordsForTheme_length_cx :
    pNoCoords.getTextureTargetDefinitionForTheme "T" true = some dEmptyT ∧
    ¬ ∃ tc, pNoCoords.getTexCoordsForTheme "T" true = some tc ∧
        tc.length = pNoCoords.vertices.length := by
  refine ⟨rfl, ?_⟩
  rintro ⟨tc, htc, -⟩
  have hn : pNoCoords.getTexCoordsForTheme "T" true = none := rfl
  rw [hn] at htc
  exact Option.noConfusion htc

/-- A second coordinate-less texture binding (for the undefined-behaviour
evaluation). -/
def dEmptyB : TextureTargetDefinition :=
  { appearance := { texId := "texEmptyB" }, texCoordsList := [] }

/-- `pFan5` with the coordinate-less `dEmptyB` binding under theme "B",
finalized through `finish` (simple path): 5 vertices, nothing collected. -/
def pMissing : Polygon :=
  Polygon.finish false engine0 false dedupId
    { pFan5 with texTargets := [(("B", true), dEmptyB)] }

/-- C3 (failing evaluation): with a bound texture target, no collected
per-ring coordinates, and a non-empty vertex buffer, the padding branch is
entered and its first `push_back(texCoords.back())` reads an element of
the empty coordinate vector (polygon.cpp:119-121) — undefined behaviour
(`none` in the embedding), not the safe no-op the claim describes. -/
theorem texcoords_empty_padding_ub :
    pMissing.vertices ≠ [] ∧
    pMissing.collectedTexCoords dEmptyB = [] ∧
    pMissing.getTextureTargetDefinitionForTheme "B" true = some dEmptyB ∧
    pMissing.getTexCoordsForTheme "B" true = none := by
  refine ⟨by decide, rfl, rfl, rfl⟩

/-- C9: orientation-agnostic appearance lookup — when a front binding
exists for the theme, `getMaterialFor'`/`getTextureFor'` return the
front-bound appearance; when no front binding exists, the front-oriented
lookup is absent and the orientation-agnostic lookup returns the
back-bound appearance when one exists. -/
theorem appearance_orientation_fallback (p : Polygon) (theme : String) :
    (∀ d, p.getMaterialTargetDefinitionForTheme theme true = some d →
      p.getMaterialFor' theme = some d.appearance) ∧
    (p.getMaterialTargetDefinitionForTheme theme true = none →
      p.getMaterialFor theme true = none ∧
      ∀ d, p.getMaterialTargetDefinitionForTheme theme false = some d →
        p.getMaterialFor' theme = some d.appearance) ∧
    (∀ d, p.getTextureTargetDefinitionForTheme theme true = some d →
      p.getTextureFor' theme = some d.appearance) ∧
    (p.getTextureTargetDefinitionForTheme theme true = none →
      p.getTextureFor theme true = none ∧
      ∀ d, p.getTextureTargetDefinitionForTheme theme false = some d →
        p.getTextureFor' theme = some d.appearance) := by
  refine ⟨fun d hd => ?_, fun h0 => ⟨?_, fun d hd => ?_⟩,
    fun d hd => ?_, fun h0 => ⟨?_, fun d hd => ?_⟩⟩
  · unfold Polygon.getMaterialFor' Polygon.getMaterialFor
    rw [hd]
  · unfold Polygon.getMaterialFor
    rw [h0]
  · unfold Polygon.getMaterialFor' Polygon.getMaterialFor
    rw [h0, hd]
  · unfold Polygon.getTextureFor' Polygon.getTextureFor
    rw [hd]
  · unfold Polygon.getTextureFor
    rw [h0]
  · unfold Polygon.getTextureFor' Polygon.getTextureFor
    rw [h0, hd]

/-- The back-bound material of the fallback witness. -/
def mBack : Material := { matId := "mBack" }

/-- The back-bound texture of the fallback witness. -/
def tBack : Texture := { texId := "tBack" }

/-- A polygon with only back-oriented bindings under theme "A". -/
def pBackOnly : Polygon :=
  { Polygon.mkPolygon "pBackOnly" with
    matTargets := [(("A", false), { appearance := mBack })],
    texTargets := [(("A", false), { appearance := tBack, texCoordsList := [] })] }

/-- Witness for C9: with only a back binding, the orientation-agnostic
lookups return the back-bound appearance while the front-oriented lookups
return nothing. -/
theorem appearance_orientation_fallback_witness :
    pBackOnly.getMaterialFor' "A" = some mBack ∧
    pBackOnly.getMaterialFor "A" true = none ∧
    pBackOnly.getTextureFor' "A" = some tBack ∧
    pBackOnly.getTextureFor "A" true = none :=
  ⟨((appearance_orientation_fallback pBackOnly "A").2.1 rfl).2 _ rfl,
   ((appearance_orientation_fallback pBackOnly "A").2.1 rfl).1,
   ((appearance_orientation_fallback pBackOnly "A").2.2.2 rfl).2 _ rfl,
   ((appearance_orientation_fallback pBackOnly "A").2.2.2 rfl).1⟩

/-- C10: the finished latch does not guard the negate-normal flag —
`setNegNormal` succeeds on every polygon (finished or not), changes only
the flag, and a subsequent `computeNormal` returns the exterior ring's
normal sign-flipped per the new flag (zero vector without an exterior
ring). -/
theorem setNegNormal_unlatched (p : Polygon) (b : Bool) :
    (p.setNegNormal b).vertices = p.vertices ∧
    (p.setNegNormal b).indices = p.indices ∧
    (p.setNegNormal b).exteriorRing = p.exteriorRing ∧
    (p.setNegNormal b).interiorRings = p.interiorRings ∧
    (p.setNegNormal b).finished = p.finished ∧
    (p.setNegNormal b).negNormal = b ∧
    (p.setNegNormal b).computeNormal =
      (match p.exteriorRing with
        | none => ((0, 0, 0) : TVec3d)
        | some r => if b then -r.computeNormal else r.computeNormal) := by
  refine ⟨rfl, rfl, rfl, rfl, rfl, rfl, ?_⟩
  unfold Polygon.computeNormal
  have hrw : (p.setNegNormal b).exteriorRing = p.exteriorRing := rfl
  rw [hrw]
  cases p.exteriorRing <;> rfl
